import Mathlib

/-!
Verification development for the go-marketo bulk-import and
custom-object subsystem (`bulk.go`, `custom.go`): the record-reference
resolver, the multipart upload body, the bulk job client, the CSV
failure-report decoder and the dynamic record decoder.
-/

set_option autoImplicit false

/-- Embeds a JSON value as produced by generic unmarshalling into a Go
map of interface values. -/
inductive JValue where
  | str (s : String)
  | num (n : Int)
  | boolean (b : Bool)
  | null
deriving DecidableEq

/-- Embeds `CustomObjectResult` (custom.go lines 70-74): the promoted
identifier and sequence attributes plus the residual field map, the Go
map being modelled as an association list. -/
structure CustomObjectResult where
  MarketoGUID : String
  Sequence : Int
  Fields : List (String × JValue)
deriving DecidableEq

/-- Embeds `strings.EqualFold` as used by mapstructure to match map keys
against struct field names. -/
def equalFold (a b : String) : Bool := a.data.map Char.toLower == b.data.map Char.toLower

/-- Embeds the key lookup mapstructure performs for one struct field: an
exact map lookup on the field name first, then a case-insensitive
scan. -/
def findField (fieldName : String) (m : List (String × JValue)) : Option (String × JValue) :=
  match m.find? (fun p => p.1 == fieldName) with
  | some p => some p
  | none => m.find? (fun p => equalFold p.1 fieldName)

/-- Embeds `mapstructure.Decode` of one generic record into
`CustomObjectResult` (custom.go line 215). The `MarketoGUID` and
`Sequence` fields carry no mapstructure tag, so they are matched by
their Go field names; `Fields` carries the `,remain` tag and receives
every key consumed by neither. -/
def decodeCustomObjectResult (m : List (String × JValue)) : Except String CustomObjectResult :=
  let guidKV := findField "MarketoGUID" m
  let seqKV := findField "Sequence" m
  let used : String → Bool := fun k =>
    (match guidKV with | some p => k == p.1 | none => false) ||
    (match seqKV with | some p => k == p.1 | none => false)
  match guidKV with
  | some (_, JValue.str g) =>
    match seqKV with
    | some (_, JValue.num n) => Except.ok ⟨g, n, m.filter (fun p => !(used p.1))⟩
    | some (k, _) => Except.error ("cannot decode field " ++ k)
    | none => Except.ok ⟨g, 0, m.filter (fun p => !(used p.1))⟩
  | some (k, _) => Except.error ("cannot decode field " ++ k)
  | none =>
    match seqKV with
    | some (_, JValue.num n) => Except.ok ⟨"", n, m.filter (fun p => !(used p.1))⟩
    | some (k, _) => Except.error ("cannot decode field " ++ k)
    | none => Except.ok ⟨"", 0, m.filter (fun p => !(used p.1))⟩

/-- Embeds the decoding loop of `CustomObjects.Filter` (custom.go lines
213-219): each raw record is decoded in turn and the first decode error
aborts the call. -/
def filterDecode (raw : List (List (String × JValue))) : Except String (List CustomObjectResult) :=
  match raw with
  | [] => Except.ok []
  | l :: rest =>
    match decodeCustomObjectResult l with
    | Except.error e => Except.error e
    | Except.ok r =>
      match filterDecode rest with
      | Except.error e => Except.error e
      | Except.ok rs => Except.ok (r :: rs)

/-- Embeds `ImportObject` (bulk.go lines 17-21). -/
structure ImportObject where
  create : String
  status : String
  failures : String
deriving DecidableEq

/-- Embeds the `Leads` import object (bulk.go lines 24-28). -/
def Leads : ImportObject :=
  ⟨"leads", "leads/batch/%d", "leads/batch/%d/failures"⟩

/-- Embeds the `importObjects` table (bulk.go lines 29-31). -/
def importObjects : List (String × ImportObject) := [("lead", Leads)]

/-- Embeds `ImportObjectForAPIName` (bulk.go lines 36-46); the `%%d` in
the Go format strings renders as a literal `%d`. -/
def ImportObjectForAPIName (apiName : String) : ImportObject :=
  match importObjects.lookup apiName with
  | some obj => obj
  | none =>
    ⟨"customobjects/" ++ apiName ++ "/import",
     "customobjects/" ++ apiName ++ "/import/%d/status",
     "customobjects/" ++ apiName ++ "/import/%d/failures"⟩

/-- Computes the split of a character list at the first occurrence of a
pattern, returning the text before the occurrence and the text after
it. -/
def splitFirst (pat : List Char) : List Char → Option (List Char × List Char)
  | [] => if pat = [] then some ([], []) else none
  | c :: rest =>
    if pat <+: (c :: rest) then some ([], (c :: rest).drop pat.length)
    else
      match splitFirst pat rest with
      | some (x, y) => some (c :: x, y)
      | none => none

/-- Embeds `fmt.Sprintf` with a single `%d` verb, as used to fill the
batch ID into a status or failures path template. -/
def sprintfInt (tmpl : String) (n : Int) : String :=
  match splitFirst ['%', 'd'] tmpl.toList with
  | some (x, y) => String.mk (x ++ (toString n).toList ++ y)
  | none => tmpl

/-- Embeds `context.Context` values to the extent the claims need them:
the background context against distinguishable caller-supplied
contexts. -/
inductive GoContext where
  | background
  | caller (id : Nat)
deriving DecidableEq

/-- Embeds the part of `net/http.Request` state the claims need:
`http.NewRequest` attaches the background context, while
`http.NewRequestWithContext` would attach the supplied one. -/
structure Request where
  method : String
  url : String
  ctx : GoContext
deriving DecidableEq

/-- Embeds `http.NewRequest`: the built request carries the background
context. -/
def httpNewRequest (method url : String) : Request :=
  ⟨method, url, GoContext.background⟩

/-- Modelled from the spec: `Client.url` (defined in the repository
outside src/) joins the configured base endpoint with the given path
segments. -/
def clientUrl (segments : List String) : String :=
  String.intercalate "/" ("https://marketo.example" :: segments)

/-- Embeds the request construction of `ImportAPI.Create` (bulk.go lines
107-113): the context argument is accepted but `http.NewRequest` is
called without it. -/
def createRequest (_ctx : GoContext) (obj : ImportObject) : Request :=
  httpNewRequest "POST" (clientUrl ["bulk", "v1", obj.create ++ ".json?format=csv"])

/-- Embeds the request construction of `ImportAPI.Get` (bulk.go lines
146-150): the context argument is accepted but `http.NewRequest` is
called without it. -/
def getRequest (_ctx : GoContext) (obj : ImportObject) (id : Int) : Request :=
  httpNewRequest "GET" (clientUrl ["bulk", "v1", sprintfInt obj.status id ++ ".json"])

/-- Embeds the request construction of `ImportAPI.Failures` (bulk.go
lines 201-205): the context argument is accepted but `http.NewRequest`
is called without it. -/
def failuresRequest (_ctx : GoContext) (obj : ImportObject) (id : Int) : Request :=
  httpNewRequest "GET" (clientUrl ["bulk", "v1", sprintfInt obj.failures id ++ ".json"])

/-- Embeds `BatchResult` (bulk.go lines 63-75); Go `int` fields are
modelled as integers. -/
structure BatchResult where
  BatchID : Int := 0
  ImportID : String := ""
  Status : String := ""
  LeadsProcessed : Int := 0
  Failures : Int := 0
  Warnings : Int := 0
  Message : String := ""
  ObjectsProcessed : Int := 0
  ObjectName : String := ""
  Processed : Int := 0
deriving DecidableEq, Inhabited

/-- Modelled from the spec: one application-level error entry carried in
the response envelope (the concrete type lives in the repository outside
src/). -/
structure ErrorReason where
  code : String := ""
  message : String := ""
deriving DecidableEq

/-- Embeds the error taxonomy of spec section 7 to the extent the claims
need it; `handleError` and `ErrorForReasons` live outside src/ and are
modelled from the spec. -/
inductive GoErr where
  | transport (msg : String)
  | httpStatus (op : String) (code : Nat)
  | api (code : Nat) (reasons : List ErrorReason)
  | notFound
  | decode (msg : String)
deriving DecidableEq

/-- Embeds the operation label `createImport` (bulk.go line 56). -/
def createImport : String := "create bulk import"

/-- Embeds the operation label `getImport` (bulk.go line 57). -/
def getImport : String := "get import status"

/-- Embeds the operation label `getImportFailures` (bulk.go line 58). -/
def getImportFailures : String := "get import failures"

/-- Modelled from the spec: `handleError` (defined in the repository
outside src/) turns a non-200 response into an HTTP-status error tagged
with the failing operation's label and the numeric status (spec section
7). -/
def handleError (op : String) (status : Nat) : GoErr := GoErr.httpStatus op status

/-- Modelled from the spec: `ErrorForReasons` (defined in the repository
outside src/) builds an API error from the HTTP status code and all
reported application-level error reasons (spec section 7). -/
def ErrorForReasons (code : Nat) (reasons : List ErrorReason) : GoErr := GoErr.api code reasons

instance exceptDecEq {ε α : Type} [DecidableEq ε] [DecidableEq α] : DecidableEq (Except ε α) :=
  fun x y =>
  match x, y with
  | Except.ok a, Except.ok b =>
    if h : a = b then isTrue (by rw [h]) else isFalse (by intro hh; cases hh; exact h rfl)
  | Except.error a, Except.error b =>
    if h : a = b then isTrue (by rw [h]) else isFalse (by intro hh; cases hh; exact h rfl)
  | Except.ok _, Except.error _ => isFalse (by intro hh; cases hh)
  | Except.error _, Except.ok _ => isFalse (by intro hh; cases hh)

/-- Modelled from the spec: the response envelope (defined in the
repository outside src/) carries the application-level error entries and
the raw result payload; the payload is represented here by the outcome
of unmarshalling it as a `BatchResult` array. -/
structure Envelope where
  errors : List ErrorReason
  resultBatches : Except String (List BatchResult)
deriving DecidableEq

/-- Embeds an HTTP response on the create/status paths: the status code
and the outcome of JSON-decoding the body into the envelope. -/
structure EnvResponse where
  status : Nat
  envelope : Except String Envelope
deriving DecidableEq

/-- Embeds the processed-count normalization of `ImportAPI.Get` (bulk.go
lines 183-188): `Processed` is set to `ObjectsProcessed` and overridden
by `LeadsProcessed` when the latter is positive. -/
def computeProcessed (r : BatchResult) : BatchResult :=
  { r with Processed := if r.LeadsProcessed > 0 then r.LeadsProcessed else r.ObjectsProcessed }

/-- Embeds the response handling of `ImportAPI.Create` (bulk.go lines
116-141) from the point the HTTP response is available; JSON decoding is
represented by its outcome. -/
def importCreate (resp : EnvResponse) : Except GoErr (List BatchResult) :=
  if resp.status ≠ 200 then Except.error (handleError createImport resp.status)
  else
    match resp.envelope with
    | Except.error e => Except.error (GoErr.decode e)
    | Except.ok env =>
      if env.errors.length > 0 then Except.error (ErrorForReasons resp.status env.errors)
      else
        match env.resultBatches with
        | Except.error e => Except.error (GoErr.decode e)
        | Except.ok results => Except.ok results

/-- Embeds the response handling of `ImportAPI.Get` (bulk.go lines
155-189) from the point the HTTP response is available: envelope
decoding, the envelope-error check, the not-found check on an empty
result array, the processed-count loop, and the return of the first
result row. -/
def importGet (resp : EnvResponse) : Except GoErr BatchResult :=
  if resp.status ≠ 200 then Except.error (handleError getImport resp.status)
  else
    match resp.envelope with
    | Except.error e => Except.error (GoErr.decode e)
    | Except.ok env =>
      if env.errors.length > 0 then Except.error (ErrorForReasons resp.status env.errors)
      else
        match env.resultBatches with
        | Except.error e => Except.error (GoErr.decode e)
        | Except.ok result =>
          if result.length < 1 then Except.error GoErr.notFound
          else Except.ok ((result.map computeProcessed).headD default)

/-- Embeds `LeadImportFailure` (bulk.go lines 194-197); the Go map is
modelled as an association list with unique keys. -/
structure LeadImportFailure where
  Reason : String
  Fields : List (String × String)
deriving DecidableEq

/-- Embeds assignment into a Go map: replace the value when the key is
already present, append the entry otherwise. -/
def mapInsert (m : List (String × String)) (k v : String) : List (String × String) :=
  if m.any (fun p => p.1 == k) then m.map (fun p => if p.1 == k then (k, v) else p)
  else m ++ [(k, v)]

/-- Embeds the field-map construction of `ImportAPI.Failures` (bulk.go
lines 236-238): the loop inserting `header[i] ↦ record[i]` for every `i`
below the given bound. -/
def buildFields (header record : List String) : Nat → List (String × String)
  | 0 => []
  | n + 1 => mapInsert (buildFields header record n) (header.getD n "") (record.getD n "")

/-- Embeds the construction of one failure from one CSV record (bulk.go
lines 232-238): the record cell at the header's last position is the
reason and the cells before it are keyed by the header names. -/
def buildFailure (header record : List String) : LeadImportFailure :=
  ⟨record.getD (header.length - 1) "", buildFields header record (header.length - 1)⟩

/-- Embeds one result of `csv.Reader.Read`: either a record or a read
error (EOF, wrong field count, malformed quoting, transport failure). -/
abbrev ReadResult := Except String (List String)

/-- Embeds the record loop of `ImportAPI.Failures` (bulk.go lines
229-241): records are accumulated until a read returns an error; an
exhausted stream models the EOF read. -/
def failuresLoop (header : List String) : List ReadResult → List LeadImportFailure
  | [] => []
  | Except.error _ :: _ => []
  | Except.ok record :: rest => buildFailure header record :: failuresLoop header rest

/-- Embeds an HTTP response on the failures path: the status code and
the sequence of CSV read results the body yields. -/
structure CsvResponse where
  status : Nat
  reads : List ReadResult
deriving DecidableEq

/-- Embeds `ImportAPI.Failures` (bulk.go lines 200-243) from the point
the HTTP response is available: the 404 branch, the non-200 branch, the
header read (whose failure, including EOF on an empty body, aborts the
call) and the lenient record loop. -/
def importFailures (resp : CsvResponse) : Except GoErr (List LeadImportFailure) :=
  if resp.status = 404 then Except.ok []
  else if resp.status ≠ 200 then Except.error (handleError getImportFailures resp.status)
  else
    match resp.reads with
    | [] => Except.error (GoErr.decode "EOF")
    | Except.error e :: _ => Except.error (GoErr.decode e)
    | Except.ok header :: rest => Except.ok (failuresLoop header rest)

/-- Counts the positions at which a pattern occurs in a character
list. -/
def countOcc (pat : List Char) : List Char → Nat
  | [] => 0
  | c :: rest => (if pat <+: (c :: rest) then 1 else 0) + countOcc pat rest

/-- Counts the integer placeholders (`%d` verbs) embedded in a path
template. -/
def countPlaceholders (s : String) : Nat := countOcc ['%', 'd'] s.data

/-- Carriage return and line feed, the multipart line terminator. -/
def crlf : List Char := ['\r', '\n']

/-- Embeds the boundary line `multipart.Writer.CreatePart` writes before
the first part: two dashes and the boundary. -/
def dashBoundary (b : List Char) : List Char := '-' :: '-' :: b

/-- Embeds the part delimiter a multipart reader scans for: CRLF, two
dashes and the boundary. -/
def delim (b : List Char) : List Char := '\r' :: '\n' :: '-' :: '-' :: b

/-- Embeds the Content-Disposition header line written by
`ImportAPI.Create` (bulk.go lines 93-95): form-data with field name
`file` and the fixed filename `import.csv`. -/
def cdLine : List Char :=
  "Content-Disposition: form-data; name=\"file\"; filename=\"import.csv\"".data

/-- Embeds the multipart body built by `ImportAPI.Create` (bulk.go lines
91-106): the opening boundary line, the single part header and its blank
line, the file bytes verbatim, and the closing boundary written by
`Writer.Close`. -/
def encodeCreateBody (b content : List Char) : List Char :=
  dashBoundary b ++ crlf ++ cdLine ++ crlf ++ crlf ++ content ++ delim b ++ ('-' :: '-' :: crlf)

/-- Decodes a literal: returns the remainder of the list after the
literal when the list starts with it. -/
def dropLit (p l : List Char) : Option (List Char) :=
  if p <+: l then some (l.drop p.length) else none

/-- Parses a Content-Disposition header line, returning the form field
name and the filename. -/
def parseHeaderLine (l : List Char) : Option (List Char × List Char) :=
  match dropLit "Content-Disposition: form-data; name=\"".data l with
  | none => none
  | some r1 =>
    match splitFirst ['\"'] r1 with
    | none => none
    | some (name, r2) =>
      match dropLit "; filename=\"".data r2 with
      | none => none
      | some r3 =>
        match splitFirst ['\"'] r3 with
        | none => none
        | some (fname, r4) => if r4 = [] then some (name, fname) else none

/-- Parses one multipart part chunk into its field name, filename and
content. -/
def parsePart (chunk : List Char) : Option (List Char × List Char × List Char) :=
  match splitFirst (crlf ++ crlf) chunk with
  | none => none
  | some (hdr, content) =>
    match parseHeaderLine hdr with
    | none => none
    | some (name, fname) => some (name, fname, content)

/-- Parses the delimited parts of a multipart body, fuel-bounded. -/
def parsePartsLoop (b : List Char) :
    Nat → List Char → Option (List (List Char × List Char × List Char))
  | 0, _ => none
  | fuel + 1, s =>
    match splitFirst (delim b) s with
    | none => none
    | some (chunk, rest) =>
      match parsePart chunk with
      | none => none
      | some part =>
        if rest = '-' :: '-' :: crlf then some [part]
        else
          match dropLit crlf rest with
          | none => none
          | some rest2 =>
            match parsePartsLoop b fuel rest2 with
            | none => none
            | some parts => some (part :: parts)

/-- Extracts the parts of a multipart body: the opening boundary line of
the first part followed by the delimited parts. -/
def parseMultipartBody (b body : List Char) :
    Option (List (List Char × List Char × List Char)) :=
  match dropLit (dashBoundary b ++ crlf) body with
  | none => none
  | some s => parsePartsLoop b (s.length + 1) s

/-- Projection fact: normalization keeps the lead counter unchanged. -/
theorem computeProcessedLeads (r : BatchResult) :
    (computeProcessed r).LeadsProcessed = r.LeadsProcessed := rfl

/-- Projection fact: normalization keeps the object counter unchanged. -/
theorem computeProcessedObjects (r : BatchResult) :
    (computeProcessed r).ObjectsProcessed = r.ObjectsProcessed := rfl

/-- Projection fact: the derived processed count is the lead counter when
positive and the object counter otherwise. -/
theorem computeProcessedValue (r : BatchResult) :
    (computeProcessed r).Processed =
      if r.LeadsProcessed > 0 then r.LeadsProcessed else r.ObjectsProcessed := rfl

/-- C1: the code refutes the claim at the concrete record. Decoding the
wire record with keys marketoGUID, seq, color and size on the Filter
path promotes the identifier but leaves the sequence attribute 0 and
places the seq key into the residual fields map, because mapstructure
matches Go field names rather than the json struct tags; the claim says
the sequence attribute becomes 3 and the fields map holds only color and
size. -/
theorem c1_seq_not_promoted :
    filterDecode [[("marketoGUID", JValue.str "g1"), ("seq", JValue.num 3),
      ("color", JValue.str "red"), ("size", JValue.str "L")]] =
    Except.ok [⟨"g1", 0, [("seq", JValue.num 3), ("color", JValue.str "red"),
      ("size", JValue.str "L")]⟩] := by decide

/-- C2: the code refutes the claim. The context argument is not threaded
through to the issued HTTP request: for every caller-supplied context,
the requests built by Create, Get and Failures carry the background
context, so the external cancellation signal cannot affect the call. -/
theorem c2_context_not_threaded (ctx : GoContext) (obj : ImportObject) (id : Int) :
    (createRequest ctx obj).ctx = GoContext.background ∧
    (getRequest ctx obj id).ctx = GoContext.background ∧
    (failuresRequest ctx obj id).ctx = GoContext.background :=
  ⟨rfl, rfl, rfl⟩

/-- C3: every job returned by Get carries a derived processed count equal
to the lead counter whenever that counter is positive and to the
generic-object counter otherwise; with nonnegative counters the zero
counter is never selected while the other is nonzero. -/
theorem c3_processed_precedence (resp : EnvResponse) (job : BatchResult)
    (h : importGet resp = Except.ok job)
    (hl : 0 ≤ job.LeadsProcessed) (ho : 0 ≤ job.ObjectsProcessed) :
    (0 < job.LeadsProcessed → job.Processed = job.LeadsProcessed) ∧
    (job.LeadsProcessed ≤ 0 → job.Processed = job.ObjectsProcessed) ∧
    ((job.LeadsProcessed ≠ 0 ∨ job.ObjectsProcessed ≠ 0) → job.Processed ≠ 0) := by
  obtain ⟨st, envx⟩ := resp
  rcases envx with e | ⟨errs, batches⟩
  · simp only [importGet] at h
    split at h <;> simp at h
  · rcases batches with e | result
    · simp only [importGet] at h
      split at h
      · simp at h
      · split at h <;> simp at h
    · rcases result with _ | ⟨r, rest⟩
      · simp only [importGet] at h
        split at h
        · simp at h
        · split at h <;> simp at h
      · simp only [importGet] at h
        split at h
        · simp at h
        · split at h
          · simp at h
          · split at h
            · simp at h
            · simp only [List.map_cons, List.headD_cons, Except.ok.injEq] at h
              subst h
              refine ⟨?_, ?_, ?_⟩
              · intro h'
                simp only [computeProcessedLeads] at h'
                simp only [computeProcessedValue, computeProcessedLeads, if_pos h']
              · intro h'
                simp only [computeProcessedLeads] at h'
                have hng : ¬ (r.LeadsProcessed > 0) := by omega
                simp only [computeProcessedValue, computeProcessedObjects, if_neg hng]
              · intro h'
                simp only [computeProcessedLeads, computeProcessedObjects] at h' hl ho
                simp only [computeProcessedValue]
                by_cases hp : r.LeadsProcessed > 0
                · rw [if_pos hp]; omega
                · rw [if_neg hp]; omega

/-- Witness for C3 at a concrete status response whose single batch row
has two leads processed and no objects processed. -/
theorem c3_processed_precedence_witness :
    (0 < ({ BatchID := 1, LeadsProcessed := 2, Processed := 2 } : BatchResult).LeadsProcessed →
      ({ BatchID := 1, LeadsProcessed := 2, Processed := 2 } : BatchResult).Processed =
        ({ BatchID := 1, LeadsProcessed := 2, Processed := 2 } : BatchResult).LeadsProcessed) ∧
    (({ BatchID := 1, LeadsProcessed := 2, Processed := 2 } : BatchResult).LeadsProcessed ≤ 0 →
      ({ BatchID := 1, LeadsProcessed := 2, Processed := 2 } : BatchResult).Processed =
        ({ BatchID := 1, LeadsProcessed := 2, Processed := 2 } : BatchResult).ObjectsProcessed) ∧
    ((({ BatchID := 1, LeadsProcessed := 2, Processed := 2 } : BatchResult).LeadsProcessed ≠ 0 ∨
      ({ BatchID := 1, LeadsProcessed := 2, Processed := 2 } : BatchResult).ObjectsProcessed ≠ 0) →
      ({ BatchID := 1, LeadsProcessed := 2, Processed := 2 } : BatchResult).Processed ≠ 0) :=
  c3_processed_precedence
    ⟨200, Except.ok ⟨[], Except.ok [{ BatchID := 1, LeadsProcessed := 2 }]⟩⟩
    { BatchID := 1, LeadsProcessed := 2, Processed := 2 }
    (by decide) (by decide) (by decide)

/-- C5: a 404 response to Failures yields the empty, non-error result,
and every other non-200 status yields the HTTP-status error labeled
"get import failures" carrying that numeric status, never an empty
success. -/
theorem c5_failures_status_branches (resp : CsvResponse) :
    (resp.status = 404 → importFailures resp = Except.ok []) ∧
    (resp.status ≠ 404 → resp.status ≠ 200 →
      importFailures resp = Except.error (GoErr.httpStatus getImportFailures resp.status)) := by
  constructor
  · intro h; simp [importFailures, h]
  · intro h404 h200; simp [importFailures, h404, h200, handleError]

/-- Witness for C5 at a 404 response and at a 500 response. -/
theorem c5_failures_status_branches_witness :
    importFailures ⟨404, []⟩ = Except.ok [] ∧
    importFailures ⟨500, []⟩ = Except.error (GoErr.httpStatus getImportFailures 500) :=
  ⟨(c5_failures_status_branches ⟨404, []⟩).1 rfl,
   (c5_failures_status_branches ⟨500, []⟩).2 (by decide) (by decide)⟩

/-- C6: on HTTP 200 with a decoded envelope carrying at least one
application-level error entry, both Create and Get fail with the API
error built from the status code and all reported reasons, and return no
result array. -/
theorem c6_envelope_errors_fail (status : Nat) (env : Envelope)
    (h200 : status = 200) (herr : env.errors ≠ []) :
    importCreate ⟨status, Except.ok env⟩ = Except.error (GoErr.api status env.errors) ∧
    importGet ⟨status, Except.ok env⟩ = Except.error (GoErr.api status env.errors) := by
  subst h200
  have hpos : 0 < env.errors.length := List.length_pos.mpr herr
  constructor
  · simp [importCreate, ErrorForReasons, hpos]
  · simp [importGet, ErrorForReasons, hpos]

/-- Witness for C6 at a 200 envelope carrying one error reason. -/
theorem c6_envelope_errors_fail_witness :
    importCreate ⟨200, Except.ok ⟨[⟨"1006", "field not found"⟩], Except.ok []⟩⟩ =
      Except.error (GoErr.api 200 [⟨"1006", "field not found"⟩]) ∧
    importGet ⟨200, Except.ok ⟨[⟨"1006", "field not found"⟩], Except.ok []⟩⟩ =
      Except.error (GoErr.api 200 [⟨"1006", "field not found"⟩]) :=
  c6_envelope_errors_fail 200 ⟨[⟨"1006", "field not found"⟩], Except.ok []⟩ rfl (by decide)

/-- C10: on a 200 response, a failing header read — an empty body whose
first read yields EOF, or a read error on the first row — aborts the
whole Failures call with that read error and returns no failure list. -/
theorem c10_header_read_failure (resp : CsvResponse) (h200 : resp.status = 200) :
    (resp.reads = [] → importFailures resp = Except.error (GoErr.decode "EOF")) ∧
    (∀ e rest, resp.reads = Except.error e :: rest →
      importFailures resp = Except.error (GoErr.decode e)) := by
  constructor
  · intro h; simp [importFailures, h200, h]
  · intro e rest h; simp [importFailures, h200, h]

/-- Witness for C10 at an empty 200 body and at a 200 body whose header
read fails. -/
theorem c10_header_read_failure_witness :
    importFailures ⟨200, []⟩ = Except.error (GoErr.decode "EOF") ∧
    importFailures ⟨200, [Except.error "read failure"]⟩ =
      Except.error (GoErr.decode "read failure") :=
  ⟨(c10_header_read_failure ⟨200, []⟩ rfl).1 rfl,
   (c10_header_read_failure ⟨200, [Except.error "read failure"]⟩ rfl).2 _ _ rfl⟩

/-- Loop fact: the record loop maps a prefix of successful reads
pointwise and continues on the remaining stream. -/
theorem failuresLoop_append (header : List String) (rows : List (List String))
    (rest : List ReadResult) :
    failuresLoop header (rows.map Except.ok ++ rest) =
      rows.map (buildFailure header) ++ failuresLoop header rest := by
  induction rows with
  | nil => simp
  | cons r rs ih => simp [failuresLoop, ih]

/-- Association-list fact: lookup over an append tries the left list
first. -/
theorem lookupAppend (k : String) (l1 l2 : List (String × String)) :
    List.lookup k (l1 ++ l2) =
      ((List.lookup k l1).orElse (fun _ => List.lookup k l2)) := by
  induction l1 with
  | nil => simp [List.lookup]
  | cons p rest ih =>
    by_cases h : k == p.1 <;> simp [List.lookup, h, ih]

/-- Map-building fact: with pairwise distinct header names the insertion
loop produces the positional association list. -/
theorem buildFields_eq (header record : List String) (n : Nat)
    (hnd : ((List.range n).map (fun i => header.getD i "")).Nodup) :
    buildFields header record n =
      (List.range n).map (fun i => (header.getD i "", record.getD i "")) := by
  induction n with
  | zero => rfl
  | succ m ih =>
    rw [List.range_succ, List.map_append] at hnd ⊢
    rw [List.nodup_append] at hnd
    rw [buildFields, ih hnd.1]
    have hfresh : ¬ (((List.range m).map
        (fun i => (header.getD i "", record.getD i ""))).any
        (fun p => p.1 == header.getD m "")) = true := by
      simp only [List.any_eq_true, beq_iff_eq]
      rintro ⟨p, hp, he⟩
      rw [List.mem_map] at hp
      obtain ⟨i, hi, rfl⟩ := hp
      simp only at he
      have : header.getD m "" ∈ (List.range m).map (fun i => header.getD i "") := by
        rw [List.mem_map]
        exact ⟨i, hi, he⟩
      exact hnd.2.2 this (by simp)
    simp only [mapInsert, hfresh, if_false, Bool.false_eq_true, reduceIte]
    simp

/-- Association-list fact: lookup misses a positional list when the key
differs from every listed name. -/
theorem lookupRangeMapNone (f g : Nat → String) (k : String) (m : Nat)
    (h : ∀ j, j < m → k ≠ f j) :
    List.lookup k ((List.range m).map (fun j => (f j, g j))) = none := by
  induction m with
  | zero => rfl
  | succ p ih =>
    rw [List.range_succ, List.map_append, lookupAppend,
      ih (fun j hj => h j (Nat.lt_succ_of_lt hj))]
    have hne : (k == f p) = false := beq_eq_false_iff_ne.mpr (h p (Nat.lt_succ_self p))
    simp [List.lookup, hne]

/-- Association-list fact: with pairwise distinct names, lookup on a
positional list returns the positional value. -/
theorem lookupRangeMap (f g : Nat → String) (n i : Nat)
    (hnd : ((List.range n).map f).Nodup) (hi : i < n) :
    List.lookup (f i) ((List.range n).map (fun j => (f j, g j))) = some (g i) := by
  induction n with
  | zero => omega
  | succ m ih =>
    rw [List.range_succ, List.map_append] at hnd ⊢
    rw [List.nodup_append] at hnd
    rw [lookupAppend]
    rcases Nat.lt_or_ge i m with hlt | hge
    · rw [ih hnd.1 hlt]
      rfl
    · have hieq : i = m := by omega
      subst hieq
      have hnone : List.lookup (f i) ((List.range i).map (fun j => (f j, g j))) = none := by
        apply lookupRangeMapNone
        intro j hj he
        have : f i ∈ (List.range i).map f := by
          rw [List.mem_map]
          exact ⟨j, by simp [List.mem_range, hj], he.symm⟩
        exact hnd.2.2 this (by simp)
      rw [hnone]
      simp [List.lookup]

/-- C7: on a 200 response whose body is a well-formed CSV document with
pairwise distinct data-column names, the call returns one failure per
data row; each failure takes the row's final cell as the reason and maps
every preceding cell under its header-column name, while the header's
last column name keys nothing. -/
theorem c7_failure_row_mapping (header : List String) (rows : List (List String))
    (resp : CsvResponse)
    (h200 : resp.status = 200)
    (hreads : resp.reads = Except.ok header :: rows.map Except.ok)
    (_hne : header ≠ [])
    (hlen : ∀ r ∈ rows, r.length = header.length)
    (hnd : ((List.range (header.length - 1)).map (fun i => header.getD i "")).Nodup) :
    importFailures resp = Except.ok (rows.map (buildFailure header)) ∧
    ∀ record ∈ rows,
      (buildFailure header record).Reason = record.getD (record.length - 1) "" ∧
      (∀ i, i < header.length - 1 →
        List.lookup (header.getD i "") (buildFailure header record).Fields =
          some (record.getD i "")) ∧
      (∀ k, (∀ i, i < header.length - 1 → k ≠ header.getD i "") →
        List.lookup k (buildFailure header record).Fields = none) := by
  constructor
  · have hloop : failuresLoop header (rows.map Except.ok) = rows.map (buildFailure header) := by
      have h1 := failuresLoop_append header rows []
      simpa [failuresLoop] using h1
    simp [importFailures, h200, hreads, hloop]
  · intro record hrec
    refine ⟨?_, ?_, ?_⟩
    · show record.getD (header.length - 1) "" = record.getD (record.length - 1) ""
      rw [hlen record hrec]
    · intro i hi
      show List.lookup (header.getD i "") (buildFields header record (header.length - 1)) = _
      rw [buildFields_eq header record _ hnd]
      exact lookupRangeMap (fun j => header.getD j "") (fun j => record.getD j "") _ i hnd hi
    · intro k hk
      show List.lookup k (buildFields header record (header.length - 1)) = none
      rw [buildFields_eq header record _ hnd]
      exact lookupRangeMapNone _ _ k _ hk

/-- Witness for C7 at the spec's concrete example: header email,
first_name, reason and one data row. -/
theorem c7_failure_row_mapping_witness :
    importFailures ⟨200, [Except.ok ["email", "first_name", "reason"],
      Except.ok ["a@x.com", "Ann", "invalid email"]]⟩ =
    Except.ok ([["a@x.com", "Ann", "invalid email"]].map
      (buildFailure ["email", "first_name", "reason"])) :=
  (c7_failure_row_mapping ["email", "first_name", "reason"]
    [["a@x.com", "Ann", "invalid email"]]
    ⟨200, [Except.ok ["email", "first_name", "reason"],
      Except.ok ["a@x.com", "Ann", "invalid email"]]⟩
    rfl rfl (by decide) (by decide) (by decide)).1

/-- C4: on a 200 response whose CSV stream has a well-formed header, k
well-formed data rows and then a malformed row or mid-stream read error,
the call returns exactly the k failures decoded so far with no error. -/
theorem c4_lenient_partial_failures (header : List String) (rows : List (List String))
    (e : String) (tail : List ReadResult) (resp : CsvResponse)
    (h200 : resp.status = 200)
    (hreads : resp.reads = Except.ok header :: (rows.map Except.ok ++ (Except.error e :: tail)))
    (_hne : header ≠ [])
    (_hlen : ∀ r ∈ rows, r.length = header.length) :
    importFailures resp = Except.ok (rows.map (buildFailure header)) ∧
    (rows.map (buildFailure header)).length = rows.length := by
  constructor
  · have hloop : failuresLoop header (rows.map Except.ok ++ (Except.error e :: tail)) =
        rows.map (buildFailure header) := by
      rw [failuresLoop_append]
      simp [failuresLoop]
    simp [importFailures, h200, hreads, hloop]
  · simp

/-- Witness for C4: one well-formed data row followed by a field-count
read error yields exactly that one failure and no error. -/
theorem c4_lenient_partial_failures_witness :
    importFailures ⟨200, [Except.ok ["email", "first_name", "reason"],
      Except.ok ["a@x.com", "Ann", "invalid email"],
      Except.error "wrong number of fields"]⟩ =
      Except.ok ([["a@x.com", "Ann", "invalid email"]].map
        (buildFailure ["email", "first_name", "reason"])) ∧
    ([["a@x.com", "Ann", "invalid email"]].map
      (buildFailure ["email", "first_name", "reason"])).length =
      [["a@x.com", "Ann", "invalid email"]].length :=
  c4_lenient_partial_failures ["email", "first_name", "reason"]
    [["a@x.com", "Ann", "invalid email"]] "wrong number of fields" []
    ⟨200, [Except.ok ["email", "first_name", "reason"],
      Except.ok ["a@x.com", "Ann", "invalid email"],
      Except.error "wrong number of fields"]⟩
    rfl rfl (by decide) (by decide)

/-- String fact: appending strings appends their character data. -/
theorem stringDataAppend (s t : String) : (s ++ t).data = s.data ++ t.data := rfl

/-- Counting fact: a pattern opening with a percent sign has no
occurrence inside a percent-free segment. -/
theorem countOccPctFree (p : List Char) (x y : List Char) (hc : '%' ∉ x) :
    countOcc ('%' :: p) (x ++ y) = countOcc ('%' :: p) y := by
  induction x with
  | nil => rfl
  | cons a rest ih =>
    have ha : a ≠ '%' := fun h => hc (by rw [h]; exact List.mem_cons_self _ _)
    rw [List.cons_append, countOcc]
    have hne : ¬ ('%' :: p <+: a :: (rest ++ y)) := by
      intro hpre
      exact ha (List.cons_prefix_cons.mp hpre).1.symm
    rw [if_neg hne, ih (fun h => hc (List.mem_cons_of_mem _ h))]
    omega

/-- C8: the resolver returns the fixed lead templates for the well-known
name lead and, for any other percent-free name, templates synthesized by
embedding the name into the generic custom-object import path pattern;
it cannot fail, and the resulting status and failures templates embed
exactly one integer placeholder while the create template embeds
zero. -/
theorem c8_resolver (apiName : String) (hp : '%' ∉ apiName.data) :
    ImportObjectForAPIName "lead" = Leads ∧
    (apiName ≠ "lead" →
      ImportObjectForAPIName apiName =
        ⟨"customobjects/" ++ apiName ++ "/import",
         "customobjects/" ++ apiName ++ "/import/%d/status",
         "customobjects/" ++ apiName ++ "/import/%d/failures"⟩) ∧
    countPlaceholders (ImportObjectForAPIName apiName).create = 0 ∧
    countPlaceholders (ImportObjectForAPIName apiName).status = 1 ∧
    countPlaceholders (ImportObjectForAPIName apiName).failures = 1 := by
  have hsynth : apiName ≠ "lead" →
      ImportObjectForAPIName apiName =
        ⟨"customobjects/" ++ apiName ++ "/import",
         "customobjects/" ++ apiName ++ "/import/%d/status",
         "customobjects/" ++ apiName ++ "/import/%d/failures"⟩ := by
    intro h
    have hne : (apiName == "lead") = false := beq_eq_false_iff_ne.mpr h
    simp [ImportObjectForAPIName, importObjects, List.lookup, hne]
  refine ⟨by decide, hsynth, ?_, ?_, ?_⟩ <;>
  · by_cases hl : apiName = "lead"
    · subst hl; decide
    · rw [hsynth hl]
      show countOcc ['%', 'd'] _ = _
      rw [stringDataAppend, stringDataAppend, List.append_assoc]
      rw [countOccPctFree ['d'] _ _ (by decide), countOccPctFree ['d'] _ _ hp]
      decide

/-- Witness for C8 at the custom-object kind widget. -/
theorem c8_resolver_witness :
    ImportObjectForAPIName "widget" =
      ⟨"customobjects/widget/import",
       "customobjects/widget/import/%d/status",
       "customobjects/widget/import/%d/failures"⟩ ∧
    countPlaceholders (ImportObjectForAPIName "widget").create = 0 ∧
    countPlaceholders (ImportObjectForAPIName "widget").status = 1 ∧
    countPlaceholders (ImportObjectForAPIName "widget").failures = 1 :=
  ⟨(c8_resolver "widget" (by decide)).2.1 (by decide),
   (c8_resolver "widget" (by decide)).2.2.1,
   (c8_resolver "widget" (by decide)).2.2.2.1,
   (c8_resolver "widget" (by decide)).2.2.2.2⟩

/-- Literal fact: stripping a literal from a list that starts with it
leaves the remainder. -/
theorem dropLitAppend (p l : List Char) : dropLit p (p ++ l) = some l := by
  simp [dropLit, List.prefix_append, List.drop_left]

/-- Splitting fact: a failed split means the pattern heads no suffix of
the list. -/
theorem splitFirstNone (pat : List Char) :
    ∀ l, splitFirst pat l = none → ∀ m, m <:+ l → ¬ pat <+: m := by
  intro l
  induction l with
  | nil =>
    intro h m hm hp
    rw [List.suffix_nil.mp hm] at hp
    rw [List.prefix_nil.mp hp] at h
    simp [splitFirst] at h
  | cons c rest ih =>
    intro h m hm hp
    rw [splitFirst] at h
    by_cases hnp : pat <+: (c :: rest)
    · rw [if_pos hnp] at h
      simp at h
    · rw [if_neg hnp] at h
      have hr : splitFirst pat rest = none := by
        cases hsp : splitFirst pat rest with
        | none => rfl
        | some v => rw [hsp] at h; obtain ⟨v1, v2⟩ := v; simp at h
      rcases List.suffix_cons_iff.mp hm with heq | hm'
      · rw [heq] at hp
        exact hnp hp
      · exact ih hr m hm' hp

/-- Splitting fact: when the pattern has no occurrence before the marked
one, the split lands exactly there. -/
theorem splitFirstAppend (pat x y : List Char) (hpat : pat ≠ [])
    (h : ∀ m, m <:+ (x ++ pat).dropLast → ¬ pat <+: m) :
    splitFirst pat (x ++ pat ++ y) = some (x, y) := by
  induction x with
  | nil =>
    rcases pat with _ | ⟨c, p⟩
    · exact absurd rfl hpat
    · show splitFirst (c :: p) (c :: (p ++ y)) = some ([], y)
      rw [splitFirst]
      have hpre : (c :: p) <+: (c :: (p ++ y)) := List.prefix_append (c :: p) y
      rw [if_pos hpre]
      show some ([], ((c :: p) ++ y).drop (c :: p).length) = some ([], y)
      rw [List.drop_left]
  | cons a x' ih =>
    have hxp : x' ++ pat ≠ [] := by
      intro h0
      exact hpat (List.append_eq_nil.mp h0).2
    have hdl : ((a :: x') ++ pat).dropLast = a :: (x' ++ pat).dropLast := by
      rcases hE : x' ++ pat with _ | ⟨c, t⟩
      · exact absurd hE hxp
      · rw [List.cons_append, hE, List.dropLast_cons₂, ← hE]
    have hAne : (a :: x') ++ pat ≠ [] := by simp
    have hdlpre : ((a :: x') ++ pat).dropLast <+: ((a :: x') ++ pat) ++ y :=
      List.IsPrefix.trans
        ⟨[((a :: x') ++ pat).getLast hAne], List.dropLast_append_getLast hAne⟩
        (List.prefix_append _ _)
    have hnp : ¬ pat <+: ((a :: x') ++ pat) ++ y := by
      intro hpre
      apply h (((a :: x') ++ pat).dropLast) List.suffix_rfl
      apply List.prefix_of_prefix_length_le hpre hdlpre
      rw [List.length_dropLast, List.length_append, List.length_cons]
      omega
    have ih' : splitFirst pat (x' ++ pat ++ y) = some (x', y) := by
      apply ih
      intro m hm hp
      apply h m ?_ hp
      rw [hdl]
      exact hm.trans (List.suffix_cons a _)
    have hnp' : ¬ pat <+: a :: (x' ++ pat ++ y) := hnp
    show splitFirst pat (a :: (x' ++ pat ++ y)) = some (a :: x', y)
    rw [splitFirst]
    rw [if_neg hnp', ih']

/-- Part fact: the chunk made of the fixed Content-Disposition header,
the blank line and the content parses back into the field name file, the
filename import.csv and the content. -/
theorem parsePartCd (content : List Char) :
    parsePart (cdLine ++ crlf ++ crlf ++ content) =
      some ("file".data, "import.csv".data, content) := by
  have hchunk : cdLine ++ crlf ++ crlf ++ content = cdLine ++ (crlf ++ crlf) ++ content := by
    simp [List.append_assoc]
  have hsp : splitFirst (crlf ++ crlf) (cdLine ++ (crlf ++ crlf) ++ content) =
      some (cdLine, content) :=
    splitFirstAppend (crlf ++ crlf) cdLine content (by decide)
      (splitFirstNone _ _ (by decide))
  have hhl : parseHeaderLine cdLine = some ("file".data, "import.csv".data) := by decide
  rw [hchunk, parsePart]
  simp only [hsp, hhl]

/-- C9: for every boundary and every content in which the part delimiter
does not occur before the closing boundary, the multipart body built by
Create parses back into exactly one part whose form field name is file,
whose filename is the fixed string import.csv and whose content is the
input bytes verbatim: re-extracting the file part recovers the original
bytes exactly. -/
theorem c9_multipart_roundtrip (b content : List Char)
    (hb : splitFirst (delim b)
      (((cdLine ++ crlf ++ crlf ++ content) ++ delim b).dropLast) = none) :
    parseMultipartBody b (encodeCreateBody b content) =
      some [("file".data, "import.csv".data, content)] := by
  have hbody : encodeCreateBody b content =
      (dashBoundary b ++ crlf) ++
        ((cdLine ++ crlf ++ crlf ++ content) ++ delim b ++ ('-' :: '-' :: crlf)) := by
    simp [encodeCreateBody, List.append_assoc]
  have hsplit : splitFirst (delim b)
      ((cdLine ++ crlf ++ crlf ++ content) ++ delim b ++ ('-' :: '-' :: crlf)) =
      some (cdLine ++ crlf ++ crlf ++ content, '-' :: '-' :: crlf) :=
    splitFirstAppend _ _ _ (by simp [delim]) (splitFirstNone _ _ hb)
  rw [hbody]
  simp only [parseMultipartBody, dropLitAppend]
  rw [parsePartsLoop]
  simp only [hsplit, parsePartCd]
  rfl

/-- Witness for C9 at a concrete boundary and a concrete CSV payload. -/
theorem c9_multipart_roundtrip_witness :
    parseMultipartBody "XYZ".data (encodeCreateBody "XYZ".data "a,b\r\n1,2\r\n".data) =
      some [("file".data, "import.csv".data, "a,b\r\n1,2\r\n".data)] :=
  c9_multipart_roundtrip "XYZ".data "a,b\r\n1,2\r\n".data (by decide)
